import Mathlib

/-!
Verification of the kritic-ai-server analysis/credit core.

This file is a shallow embedding, in Lean 4, of the parts of the
kritic-ai-server Python repository that the verified claims are about:

* `app/services/analysis_service.py` — the multi-provider analysis
  orchestration: `_parse_json_response`, `_synthesize_results`,
  `_merge_analyses`, `_create_fallback_analysis` and `analyze`;
* `app/api/v1/endpoints/analyze.py` — `get_current_user`,
  `create_analysis`, `run_analysis`;
* `app/api/v1/endpoints/credits.py` — `purchase_credits` and the credit
  branch of `stripe_webhook`;
* the `User`, `Transaction` and `Analysis` ORM rows those endpoints touch.

Python `dict`s produced by `json.loads` are modelled by the inductive
`Json` below; machine integers are `Int` (Python integers are unbounded,
so no wrap-around modelling is needed); fallible operations return
`Option`/`Except`.  Modelling notes on the points where Python is wider
than the embedding (floating-point JSON literals, `len()` applied to a
number, iteration over a non-list) are given at the definitions involved.
-/

/-- A JSON value as produced by Python's `json.loads`: `None`, booleans,
numbers, strings, lists and dicts (dicts keep insertion order, later
duplicate keys overwrite the value stored at the first occurrence, which
is exactly CPython's behaviour).  Numeric literals are modelled as
integers; fractional/exponent literals are outside the modelled fragment
(no claim exercises them). -/
inductive Json where
  | null
  | bool (b : Bool)
  | num (n : Int)
  | str (s : String)
  | arr (elems : List Json)
  | obj (fields : List (String × Json))
deriving Repr

mutual

/-- Boolean equality on JSON values (Python `==` on the corresponding
values, restricted to equal types). -/
def Json.beq : Json → Json → Bool
  | .null, .null => true
  | .bool a, .bool b => a == b
  | .num a, .num b => a == b
  | .str a, .str b => a == b
  | .arr xs, .arr ys => Json.beqList xs ys
  | .obj fs, .obj gs => Json.beqFields fs gs
  | _, _ => false

/-- Boolean equality on JSON arrays, elementwise. -/
def Json.beqList : List Json → List Json → Bool
  | [], [] => true
  | x :: xs, y :: ys => Json.beq x y && Json.beqList xs ys
  | _, _ => false

/-- Boolean equality on JSON object field lists, pairwise. -/
def Json.beqFields : List (String × Json) → List (String × Json) → Bool
  | [], [] => true
  | (k, v) :: fs, (l, w) :: gs => k == l && (Json.beq v w && Json.beqFields fs gs)
  | _, _ => false

end

mutual

/-- `Json.beq` implies propositional equality. -/
def Json.eqOfBeq : ∀ a b : Json, Json.beq a b = true → a = b
  | .null, .null, _ => rfl
  | .bool _, .bool _, h => by
      simp only [Json.beq, beq_iff_eq] at h; exact h ▸ rfl
  | .num _, .num _, h => by
      simp only [Json.beq, beq_iff_eq] at h; exact h ▸ rfl
  | .str _, .str _, h => by
      simp only [Json.beq, beq_iff_eq] at h; exact h ▸ rfl
  | .arr xs, .arr ys, h => by
      simp only [Json.beq] at h
      exact congrArg Json.arr (Json.eqListOfBeqList xs ys h)
  | .obj fs, .obj gs, h => by
      simp only [Json.beq] at h
      exact congrArg Json.obj (Json.eqFieldsOfBeqFields fs gs h)

/-- `Json.beqList` implies propositional equality of lists. -/
def Json.eqListOfBeqList : ∀ xs ys : List Json, Json.beqList xs ys = true → xs = ys
  | [], [], _ => rfl
  | x :: xs, y :: ys, h => by
      simp only [Json.beqList, Bool.and_eq_true] at h
      exact congrArg₂ List.cons (Json.eqOfBeq x y h.1)
        (Json.eqListOfBeqList xs ys h.2)

/-- `Json.beqFields` implies propositional equality of field lists. -/
def Json.eqFieldsOfBeqFields :
    ∀ fs gs : List (String × Json), Json.beqFields fs gs = true → fs = gs
  | [], [], _ => rfl
  | (k, v) :: fs, (l, w) :: gs, h => by
      simp only [Json.beqFields, Bool.and_eq_true, beq_iff_eq] at h
      have hv := Json.eqOfBeq v w h.2.1
      have hf := Json.eqFieldsOfBeqFields fs gs h.2.2
      rw [h.1, hv, hf]

end

mutual

/-- `Json.beq` is reflexive. -/
def Json.beqRefl : ∀ a : Json, Json.beq a a = true
  | .null => rfl
  | .bool b => by simp [Json.beq]
  | .num n => by simp [Json.beq]
  | .str s => by simp [Json.beq]
  | .arr xs => by simp only [Json.beq]; exact Json.beqListRefl xs
  | .obj fs => by simp only [Json.beq]; exact Json.beqFieldsRefl fs

/-- `Json.beqList` is reflexive. -/
def Json.beqListRefl : ∀ xs : List Json, Json.beqList xs xs = true
  | [] => rfl
  | x :: xs => by
      simp only [Json.beqList, Bool.and_eq_true]
      exact ⟨Json.beqRefl x, Json.beqListRefl xs⟩

/-- `Json.beqFields` is reflexive. -/
def Json.beqFieldsRefl : ∀ fs : List (String × Json), Json.beqFields fs fs = true
  | [] => rfl
  | (k, v) :: fs => by
      simp only [Json.beqFields, Bool.and_eq_true]
      exact ⟨by simp, Json.beqRefl v, Json.beqFieldsRefl fs⟩

end

instance : DecidableEq Json := fun a b =>
  if h : Json.beq a b = true then .isTrue (Json.eqOfBeq a b h)
  else .isFalse fun he => h (he ▸ Json.beqRefl a)

/-- The JSON whitespace characters (the only whitespace `json.loads`
skips between tokens). -/
def isJsonWs (c : Char) : Bool :=
  c = ' ' || c = '\n' || c = '\t' || c = '\r'

/-- Drop leading JSON whitespace. -/
def skipWs : List Char → List Char
  | [] => []
  | c :: cs => if isJsonWs c then skipWs cs else c :: cs

/-- Decode a single-character JSON string escape (`\"`, `\\`, `\/`,
`\b`, `\f`, `\n`, `\r`, `\t`).  `\uXXXX` escapes are outside the
modelled fragment (no claim exercises them); any other escape is
invalid, as in `json.loads`. -/
def escChar : Char → Option Char
  | '"' => some '"'
  | '\\' => some '\\'
  | '/' => some '/'
  | 'b' => some '\x08'
  | 'f' => some '\x0c'
  | 'n' => some '\n'
  | 'r' => some '\r'
  | 't' => some '\t'
  | _ => none

/-- Parse the body of a JSON string after the opening quote, returning
the decoded string and the remaining input.  Unescaped control
characters are invalid, as in strict-mode `json.loads`. -/
def parseStringBody : List Char → Option (List Char × List Char)
  | [] => none
  | '"' :: rest => some ([], rest)
  | '\\' :: e :: rest => do
      let c ← escChar e
      let (s, r) ← parseStringBody rest
      return (c :: s, r)
  | c :: rest =>
      if c.toNat < 32 then none
      else do
        let (s, r) ← parseStringBody rest
        return (c :: s, r)

/-- Take the longest prefix of decimal digits. -/
def takeDigits : List Char → (List Char × List Char)
  | [] => ([], [])
  | c :: cs =>
      if c.isDigit then
        let (ds, rest) := takeDigits cs
        (c :: ds, rest)
      else ([], c :: cs)

/-- Digits to a natural number. -/
def digitsToNat (ds : List Char) : Nat :=
  ds.foldl (fun n c => n * 10 + (c.toNat - 48)) 0

/-- Parse a JSON number.  Following the JSON grammar, a leading zero may
not be followed by further digits.  A fractional part or exponent marks
a floating-point literal, which is outside the modelled fragment and is
treated as unparseable here. -/
def parseNumber (cs : List Char) : Option (Json × List Char) :=
  let (neg, cs1) := match cs with
    | '-' :: r => (true, r)
    | _ => (false, cs)
  match takeDigits cs1 with
  | ([], _) => none
  | (ds, rest) =>
      if ds.length > 1 && ds.headD '0' = '0' then none
      else
        match rest with
        | '.' :: _ => none
        | 'e' :: _ => none
        | 'E' :: _ => none
        | _ =>
            let n : Int := digitsToNat ds
            some (.num (if neg then -n else n), rest)

/-- Insert a key/value pair into a JSON object under construction:
later duplicate keys overwrite the value at the first occurrence,
matching CPython dict semantics. -/
def insertKey (acc : List (String × Json)) (k : String) (v : Json) :
    List (String × Json) :=
  if acc.any (fun p => decide (p.1 = k)) then
    acc.map (fun p => if p.1 = k then (k, v) else p)
  else acc ++ [(k, v)]

mutual

/-- Parse one JSON value (after skipping leading whitespace), returning
the value and the remaining input.  The `fuel` argument bounds recursion
depth; `json_loads` supplies more than enough for its input. -/
def parseValue : Nat → List Char → Option (Json × List Char)
  | 0, _ => none
  | fuel + 1, cs =>
      match skipWs cs with
      | 'n' :: 'u' :: 'l' :: 'l' :: r => some (.null, r)
      | 't' :: 'r' :: 'u' :: 'e' :: r => some (.bool true, r)
      | 'f' :: 'a' :: 'l' :: 's' :: 'e' :: r => some (.bool false, r)
      | '"' :: r => do
          let (s, r1) ← parseStringBody r
          return (.str (String.mk s), r1)
      | '[' :: r => parseElems fuel (skipWs r)
      | '\x7b' :: r => parseMembers fuel (skipWs r)
      | r => parseNumber r

/-- Parse the contents of a JSON array after `[` (leading whitespace
already skipped). -/
def parseElems : Nat → List Char → Option (Json × List Char)
  | 0, _ => none
  | fuel + 1, cs =>
      match cs with
      | ']' :: r => some (.arr [], r)
      | _ => do
          let (v, r1) ← parseValue fuel cs
          parseElemsRest fuel [v] r1

/-- Parse `, value`* `]` after the first array element. -/
def parseElemsRest : Nat → List Json → List Char → Option (Json × List Char)
  | 0, _, _ => none
  | fuel + 1, acc, cs =>
      match skipWs cs with
      | ']' :: r => some (.arr acc, r)
      | ',' :: r => do
          let (v, r1) ← parseValue fuel r
          parseElemsRest fuel (acc ++ [v]) r1
      | _ => none

/-- Parse the contents of a JSON object after `{` (leading whitespace
already skipped). -/
def parseMembers : Nat → List Char → Option (Json × List Char)
  | 0, _ => none
  | fuel + 1, cs =>
      match cs with
      | '\x7d' :: r => some (.obj [], r)
      | '"' :: r => do
          let (k, r1) ← parseStringBody r
          match skipWs r1 with
          | ':' :: r2 => do
              let (v, r3) ← parseValue fuel r2
              parseMembersRest fuel (insertKey [] (String.mk k) v) r3
          | _ => none
      | _ => none

/-- Parse `, "key": value`* `}` after the first object member. -/
def parseMembersRest :
    Nat → List (String × Json) → List Char → Option (Json × List Char)
  | 0, _, _ => none
  | fuel + 1, acc, cs =>
      match skipWs cs with
      | '\x7d' :: r => some (.obj acc, r)
      | ',' :: r =>
          match skipWs r with
          | '"' :: r1 => do
              let (k, r2) ← parseStringBody r1
              match skipWs r2 with
              | ':' :: r3 => do
                  let (v, r4) ← parseValue fuel r3
                  parseMembersRest fuel (insertKey acc (String.mk k) v) r4
              | _ => none
          | _ => none
      | _ => none

end

/-- Python's `json.loads`: parse one JSON document, allowing surrounding
whitespace and rejecting any trailing data. -/
def json_loads (s : String) : Option Json :=
  match parseValue (2 * s.length + 2) s.toList with
  | some (j, rest) => if skipWs rest = [] then some j else none
  | none => none

/-- Index of the first `'{'` in the text, if any. -/
def firstOpenIdx (cs : List Char) : Option Nat :=
  cs.findIdx? (fun c => decide (c = '\x7b'))

/-- Index of the last `'}'` in the text, if any. -/
def lastCloseIdx (cs : List Char) : Option Nat :=
  match cs.reverse.findIdx? (fun c => decide (c = '\x7d')) with
  | some k => some (cs.length - 1 - k)
  | none => none

/-- The substring matched by `re.search(r'\{[\s\S]*\}', text)`: the
leftmost match of a greedy pattern, i.e. the span running from the first
`'{'` of the text to the last `'}'` of the whole text (a match needs the
closing brace strictly after the opening one). -/
def braceSpan (s : String) : Option String :=
  let cs := s.toList
  match firstOpenIdx cs, lastCloseIdx cs with
  | some i, some j =>
      if i < j then some (String.mk ((cs.drop i).take (j + 1 - i))) else none
  | _, _ => none

/-- `AnalysisService._parse_json_response`: try `json.loads` on the whole
text; on failure, try `json.loads` on the greedy first-`{`-to-last-`}`
span; on failure return `None`. -/
def parse_json_response (response_text : String) : Option Json :=
  match json_loads response_text with
  | some j => some j
  | none =>
      match braceSpan response_text with
      | some sub => json_loads sub
      | none => none

/-- Python truthiness of a JSON value (`if value:`): `None`, `False`,
`0`, `""`, `[]` and `{}` are falsy, everything else is truthy. -/
def Json.truthy : Json → Bool
  | .null => false
  | .bool b => b
  | .num n => n != 0
  | .str s => s != ""
  | .arr xs => !xs.isEmpty
  | .obj fs => !fs.isEmpty

/-- `d.get(k)` on a dict: the value stored at `k`, if any.  Applied to a
non-dict value this returns `none` (in Python that call raises; none of
the modelled inputs reach that case). -/
def Json.lookup : Json → String → Option Json
  | .obj fs, k => (fs.find? (fun p => decide (p.1 = k))).map (·.2)
  | _, _ => none

/-- `d.get(k, default)` on a dict: the stored value if the key is
present (even when falsy), the default otherwise. -/
def Json.getD (j : Json) (k : String) (d : Json) : Json :=
  (j.lookup k).getD d

mutual

/-- Python `repr` of the value corresponding to a JSON value (what
`str` produces for containers).  String escaping inside `repr` is not
modelled; no modelled input relies on it. -/
def pyRepr : Json → String
  | .null => "None"
  | .bool true => "True"
  | .bool false => "False"
  | .num n => toString n
  | .str s => "'" ++ s ++ "'"
  | .arr xs => "[" ++ String.intercalate ", " (pyReprList xs) ++ "]"
  | .obj fs => "\x7b" ++ String.intercalate ", " (pyReprFields fs) ++ "\x7d"

/-- `repr` of each array element. -/
def pyReprList : List Json → List String
  | [] => []
  | x :: xs => pyRepr x :: pyReprList xs

/-- `repr` of each `'key': value` member. -/
def pyReprFields : List (String × Json) → List String
  | [] => []
  | (k, v) :: fs => ("'" ++ k ++ "': " ++ pyRepr v) :: pyReprFields fs

end

/-- Python `str` of the value corresponding to a JSON value: identity on
strings, `repr`-like rendering otherwise. -/
def pyStr : Json → String
  | .str s => s
  | j => pyRepr j

/-- Python `len` of a JSON value (strings count code points, as both
Python strings and Lean strings do).  `len` of a number raises in
Python; no modelled input reaches that case. -/
def pyLen : Json → Nat
  | .str s => s.length
  | .arr xs => xs.length
  | .obj fs => fs.length
  | _ => 0

/-- Python `max(xs, key=key, default=d)`: the first element with maximal
key (`max` keeps the earlier element on ties), or `d` when the list is
empty. -/
def pyMaxBy (key : Json → Nat) (xs : List Json) (d : Json) : Json :=
  match xs with
  | [] => d
  | x :: rest => rest.foldl (fun b a => if key b < key a then a else b) x

/-- The numeric value of a JSON value under Python arithmetic:
`True`/`False` count as `1`/`0` (Python `sum` accepts booleans).  Other
non-numbers make Python's `sum` raise; no modelled input reaches that
case. -/
def jsonNum : Json → Int
  | .num n => n
  | .bool true => 1
  | .bool false => 0
  | _ => 0

/-- `sum(xs)` over the collected score values. -/
def sumScores (xs : List Json) : Int :=
  (xs.map jsonNum).sum

/-- `[a.get("optimism_bias_score", 65) for a in analyses if
a.get("optimism_bias_score")]` — note the filter keeps only *truthy*
scores, so a present score of `0` is dropped, and the `65` default in
the mapped expression is unreachable (the filter already required the
key to be present and truthy). -/
def optimismScores (analyses : List Json) : List Json :=
  analyses.filterMap fun a =>
    match a.lookup "optimism_bias_score" with
    | some v => if v.truthy then some v else none
    | none => none

/-- `[a.get("final_verdict", {}).get("score", 5) for a in analyses if
a.get("final_verdict", {}).get("score")]` — same truthy filter as the
optimism scores. -/
def finalScores (analyses : List Json) : List Json :=
  analyses.filterMap fun a =>
    match (a.getD "final_verdict" (.obj [])).lookup "score" with
    | some v => if v.truthy then some v else none
    | none => none

/-- `analysis.get("competitors", [])`, as a list.  A non-list value
there would be iterated by Python (raising on `comp.get` for most
element types); no modelled input reaches that case. -/
def competitorsOf (a : Json) : List Json :=
  match a.getD "competitors" (.arr []) with
  | .arr xs => xs
  | _ => []

/-- One step of the competitor-collection loop: for each competitor of
one analysis, if its `name` is truthy and not yet a key of the
accumulated dict, append it (Python dicts keep insertion order, so the
accumulator is an ordered association list keyed by the name value). -/
def addCompetitors (acc : List (Json × Json)) (a : Json) : List (Json × Json) :=
  (competitorsOf a).foldl
    (fun acc comp =>
      match comp with
      | .obj _ =>
          let nm := comp.getD "name" .null
          if nm.truthy && !(acc.any fun p => decide (p.1 = nm)) then
            acc ++ [(nm, comp)]
          else acc
      | _ => acc)
    acc

/-- `list(all_competitors.values())[:8]` after the collection loop over
all analyses in order. -/
def mergedCompetitors (analyses : List Json) : List Json :=
  ((analyses.foldl addCompetitors []).map (·.2)).take 8

/-- `[a.get("feasibility", {}) for a in analyses if a.get("feasibility")]`. -/
def feasList (analyses : List Json) : List Json :=
  analyses.filterMap fun a =>
    match a.lookup "feasibility" with
    | some v => if v.truthy then some v else none
    | none => none

/-- All risk factors of all analyses, in encounter order
(`all_risks.extend(analysis.get("risk_factors", []))`). -/
def allRisks (analyses : List Json) : List Json :=
  analyses.foldl
    (fun acc a =>
      acc ++ (match a.getD "risk_factors" (.arr []) with
              | .arr xs => xs
              | _ => []))
    []

/-- `risk.get("risk", str(risk)) if isinstance(risk, dict) else risk`. -/
def normalizeRisk (r : Json) : Json :=
  match r with
  | .obj _ => r.getD "risk" (.str (pyRepr r))
  | _ => r

/-- The merged verdict dict returned by `_merge_analyses` and
`_create_fallback_analysis`, with the two-level nested dicts flattened
into prefixed fields: `market_*` are the fields of
`market_size_reality`, `feas_*` those of `feasibility_assessment` and
`verdict_*` those of `final_verdict`. -/
structure MergedVerdict where
  optimism_bias_score : Int
  optimism_analysis : Json
  competitors : List Json
  market_claimed : Json
  market_actual : Json
  market_notes : Json
  feas_technical : Json
  feas_financial : Json
  feas_timeline : Json
  risk_factors : List Json
  verdict_score : Int
  verdict_reasoning : Json
  verdict_one_liner : Json
  verdict_if_you_proceed : Json
deriving Repr, DecidableEq

/-- `AnalysisService._merge_analyses`: merge the parsed per-provider
JSON analyses, in list order, into one verdict. -/
def merge_analyses (original_response : String) (analyses : List Json) :
    MergedVerdict :=
  let optScores := optimismScores analyses
  let avg_optimism : Int :=
    if optScores.isEmpty then 65
    else Int.fdiv (sumScores optScores) optScores.length
  let market_reality :=
    pyMaxBy (fun x => (pyStr (x.getD "truth_bomb" (.str ""))).length)
      (analyses.map (fun a => a.getD "market_reality" (.obj []))) (.obj [])
  let merged_feasibility := (feasList analyses).headD (.obj [])
  let fScores := finalScores analyses
  let avg_score : Int :=
    if fScores.isEmpty then 5
    else Int.fdiv (sumScores fScores) fScores.length
  let best_verdict :=
    pyMaxBy (fun x => (pyStr (x.getD "reasoning" (.str ""))).length)
      (analyses.map (fun a => a.getD "final_verdict" (.obj []))) (.obj [])
  let optimism_analysis :=
    pyMaxBy pyLen
      (analyses.map (fun a => a.getD "optimism_analysis" (.str "")))
      (.str "분석 결과 낙관적 편향이 감지되었습니다.")
  { optimism_bias_score := avg_optimism
    optimism_analysis := optimism_analysis
    competitors := mergedCompetitors analyses
    market_claimed := market_reality.getD "claimed_size" (.str "명시되지 않음")
    market_actual := market_reality.getD "actual_size" (.str "추가 검증 필요")
    market_notes := market_reality.getD "truth_bomb" (.str "시장 규모는 신중한 검증이 필요합니다.")
    feas_technical :=
      (merged_feasibility.getD "technical" (.obj [])).getD "reality" (.str "기술적 검증 필요")
    feas_financial :=
      (merged_feasibility.getD "financial" (.obj [])).getD "actual_cost"
        (.str "재무 요구사항이 과소평가되었을 수 있음")
    feas_timeline :=
      (merged_feasibility.getD "timeline" (.obj [])).getD "reality"
        (.str "타임라인이 낙관적으로 추정됨")
    risk_factors := ((allRisks analyses).take 8).map normalizeRisk
    verdict_score := avg_score
    verdict_reasoning :=
      best_verdict.getD "reasoning"
        (.str ("종합 분석 결과 " ++ toString avg_score ++ "/10점입니다. 낙관 편향 " ++
               toString avg_optimism ++ "/100 감지. 모든 가정을 신중히 검증하세요."))
    verdict_one_liner := best_verdict.getD "one_liner" (.str "현실적인 검증이 필요합니다.")
    verdict_if_you_proceed :=
      best_verdict.getD "if_you_proceed" (.str "진행하신다면, 경쟁사 분석과 MVP 검증부터 시작하세요.") }

/-- `AnalysisService._create_fallback_analysis`: the fixed verdict used
when no provider output could be parsed.  Its argument
(`original_response`) is ignored by the source as well. -/
def create_fallback_analysis (original_response : String) : MergedVerdict :=
  { optimism_bias_score := 70
    optimism_analysis := .str "AI 응답 분석 중 일부 제한이 있었으나, 일반적으로 낙관적 편향이 감지됩니다."
    competitors :=
      [Json.obj
        [("name", .str "시장 조사 필요"),
         ("url", .str "https://www.google.com/search?q=competitors"),
         ("description", .str "상세한 경쟁사 분석을 위해 추가 조사가 필요합니다."),
         ("market_position", .str "미확인")]]
    market_claimed := .str "명시되지 않음"
    market_actual := .str "추가 검증 필요"
    market_notes := .str "시장 규모와 관련된 주장은 독립적인 검증이 필요합니다."
    feas_technical :=
      .str "기술적 실현 가능성은 추가 검증이 필요합니다. 실제 구현에는 예상보다 많은 시간과 리소스가 소요될 수 있습니다."
    feas_financial :=
      .str "재무 요구사항이 과소평가되었을 가능성이 있습니다. MVP 개발부터 시장 진입까지 필요한 자금을 신중히 계산하세요."
    feas_timeline := .str "타임라인 추정이 낙관적일 수 있습니다. 실제로는 2-3배 더 걸릴 수 있습니다."
    risk_factors :=
      [.str "시장 경쟁이 예상보다 치열할 수 있음",
       .str "고객 획득 비용이 높을 수 있음",
       .str "규제 및 법적 문제 가능성",
       .str "기술적 복잡도 과소평가",
       .str "자금 요구사항이 상당할 수 있음"]
    verdict_score := 5
    verdict_reasoning :=
      .str "분석 결과 이 아이디어는 중간 정도의 실현 가능성을 보입니다. 진행하기 전에 경쟁사 분석, 시장 검증, 기술적 타당성을 철저히 확인하는 것이 중요합니다."
    verdict_one_liner := .str "신중한 검증 없이는 진행하지 마세요."
    verdict_if_you_proceed := .str "최소한의 MVP로 시작하여 실제 사용자 피드백을 받고, 경쟁사를 면밀히 분석하세요." }

/-- One settled element of the `asyncio.gather(..., return_exceptions=True)`
result list: either an exception object, or the `{"model": ...,
"response": ...}` dict a provider helper returned (on a provider-local
failure that dict carries an empty `response`, which is what
`_synthesize_results` inspects). -/
inductive LLMOutcome where
  | exn
  | result (model : String) (response : String)
deriving Repr, DecidableEq

/-- The parsed verdict `_synthesize_results` keeps for one outcome:
dicts only, with a truthy (non-empty) `response` text, whose parse
succeeds and is itself truthy (`if parsed:`). -/
def parsedOf : LLMOutcome → Option Json
  | .exn => none
  | .result _ resp =>
      if resp = "" then none
      else
        match parse_json_response resp with
        | some j => if j.truthy then some j else none
        | none => none

/-- `AnalysisService._synthesize_results`: parse every response, merge
the parseable ones, fall back to the fixed analysis when none parse. -/
def synthesize_results (original_response : String)
    (llm_responses : List LLMOutcome) : MergedVerdict :=
  let parsed := llm_responses.filterMap parsedOf
  if parsed.isEmpty then create_fallback_analysis original_response
  else merge_analyses original_response parsed

/-- `AnalysisService.analyze`: fan out to the providers named in
`models` and synthesize.  The tasks are appended in the fixed source
order (`gpt4`, then `claude`, then `gemini`, each guarded by a
membership test), so the settled-responses list — and hence the merge
order — follows that fixed order, not the order of `models`.  The
network behaviour of each provider call is abstracted as `env`, giving
the settled outcome per provider. -/
def analyze (original_response : String) (context : Option String)
    (models : List String) (env : String → LLMOutcome) : MergedVerdict :=
  let responses :=
    (if "gpt4" ∈ models then [env "gpt4"] else []) ++
    (if "claude" ∈ models then [env "claude"] else []) ++
    (if "gemini" ∈ models then [env "gemini"] else [])
  synthesize_results original_response responses

/-- `TransactionType` (`app/models/transaction.py`). -/
inductive TransactionType where
  | purchase
  | usage
  | refund
deriving Repr, DecidableEq

/-- `AnalysisStatus` (`app/models/analysis.py`). -/
inductive AnalysisStatus where
  | pending
  | processing
  | completed
  | failed
deriving Repr, DecidableEq

/-- The columns of a `user` row that the modelled endpoints read or
write (`app/models/user.py`); the remaining profile columns do not
affect any claim. -/
structure UserRec where
  id : Nat
  name : String
  email : String
  credits_balance : Int
deriving Repr, DecidableEq

/-- A `transaction` row (`app/models/transaction.py`): an append-only
ledger entry. -/
structure TransactionRec where
  user_id : Nat
  type : TransactionType
  amount : Int
  description : String
deriving Repr, DecidableEq

/-- An `analysis` row (`app/models/analysis.py`).  Timestamps do not
affect any claim and are not modelled. -/
structure AnalysisRec where
  id : Nat
  user_id : Nat
  original_response : String
  context : Option String
  models_used : List String
  status : AnalysisStatus
  results : Option MergedVerdict
  credits_used : Int
deriving Repr, DecidableEq

/-- The database state the modelled endpoints touch: the three tables,
each as a list of rows in insertion order. -/
structure DB where
  users : List UserRec
  analyses : List AnalysisRec
  transactions : List TransactionRec
deriving Repr, DecidableEq

/-- The request body of `POST /analyze`
(`app/schemas/analysis.py: AnalysisCreate`).  Pydantic validates only
the field types: any string is accepted for `original_response` and any
list of strings for `models`. -/
structure AnalysisCreate where
  original_response : String
  context : Option String
  models : List String
deriving Repr, DecidableEq

/-- The default user row `get_current_user` inserts into an empty
`user` table (`credits_balance=100`; the `id` is the first
autoincrement value, modelled as 0 since the table is empty). -/
def defaultTestUser : UserRec :=
  { id := 0, name := "Test User", email := "test@kritic.com", credits_balance := 100 }

/-- `get_current_user` (`app/api/v1/endpoints/analyze.py`): return the
first row of the `user` table, creating the default test user when the
table is empty.  It reads nothing from the request — no header or
credential reaches it. -/
def get_current_user (db : DB) : UserRec × DB :=
  match db.users with
  | [] => (defaultTestUser, { db with users := [defaultTestUser] })
  | u :: _ => (u, db)

/-- Debit/credit one user's balance in place
(`current_user.credits_balance -= ...` / `+= ...` on the ORM row). -/
def updateBalance (uid : Nat) (delta : Int) (users : List UserRec) :
    List UserRec :=
  users.map fun u =>
    if u.id = uid then { u with credits_balance := u.credits_balance + delta }
    else u

/-- The outcome of the synchronous `POST /analyze` handler: the HTTP
error status raised, or the id of the created analysis, together with
the database state after the handler. -/
instance {ε α : Type} [DecidableEq ε] [DecidableEq α] :
    DecidableEq (Except ε α) := fun a b =>
  match a, b with
  | .ok x, .ok y =>
      if h : x = y then .isTrue (by rw [h]) else .isFalse (by simp [h])
  | .error x, .error y =>
      if h : x = y then .isTrue (by rw [h]) else .isFalse (by simp [h])
  | .ok _, .error _ => .isFalse (by simp)
  | .error _, .ok _ => .isFalse (by simp)

structure CreateResult where
  response : Except Nat Nat
  db : DB
deriving Repr, DecidableEq

/-- `create_analysis` (`app/api/v1/endpoints/analyze.py`): resolve the
user, compute `credit_cost = len(models) * 10`, reject with 402 when
the balance is strictly below the cost, otherwise — in one unit of
work — insert the pending analysis row, debit the balance and append
the usage transaction.  The new row's id is the next autoincrement
value, modelled as one past the current row count. -/
def create_analysis (analysis_data : AnalysisCreate) (db : DB) : CreateResult :=
  let user := (get_current_user db).1
  let db1 := (get_current_user db).2
  let credit_cost : Int := (analysis_data.models.length : Int) * 10
  if user.credits_balance < credit_cost then
    { response := .error 402, db := db1 }
  else
    let analysisId := db1.analyses.length + 1
    let analysis : AnalysisRec :=
      { id := analysisId
        user_id := user.id
        original_response := analysis_data.original_response
        context := analysis_data.context
        models_used := analysis_data.models
        status := .pending
        results := none
        credits_used := credit_cost }
    let tx : TransactionRec :=
      { user_id := user.id
        type := .usage
        amount := -credit_cost
        description := "Analysis using " ++ String.intercalate ", " analysis_data.models }
    { response := .ok analysisId
      db := { users := updateBalance user.id (-credit_cost) db1.users
              analyses := db1.analyses ++ [analysis]
              transactions := db1.transactions ++ [tx] } }

/-- `purchase_credits` (`app/api/v1/endpoints/credits.py`): the header
dependency resolves a user id (401/404 on failure, leaving the database
untouched); on success the balance is credited by `purchase.amount` and
one purchase transaction of the same amount is appended.  The amount is
an arbitrary `int` — the schema does not constrain its sign. -/
def purchase_credits (userId : Nat) (amount : Int) (db : DB) : CreateResult :=
  match db.users.find? (fun u => decide (u.id = userId)) with
  | none => { response := .error 404, db := db }
  | some _ =>
      let tx : TransactionRec :=
        { user_id := userId
          type := .purchase
          amount := amount
          description := "Purchased " ++ toString amount ++ " credits" }
      { response := .ok 0
        db := { db with users := updateBalance userId amount db.users
                        transactions := db.transactions ++ [tx] } }

/-- The `checkout.session.completed` branch of `stripe_webhook`
(`app/api/v1/endpoints/credits.py`): credit the referenced user and
append one purchase transaction of the same amount; a missing user is
silently ignored buyt the webhook still answers success. -/
def stripe_webhook_credit (userId : Nat) (credits : Int) (package : String)
    (db : DB) : DB :=
  match db.users.find? (fun u => decide (u.id = userId)) with
  | none => db
  | some _ =>
      let tx : TransactionRec :=
        { user_id := userId
          type := .purchase
          amount := credits
          description := "Purchased " ++ package ++ " package (" ++
            toString credits ++ " credits) via Stripe" }
      { db with users := updateBalance userId credits db.users
                transactions := db.transactions ++ [tx] }

/-- The failure environment of one background `run_analysis` execution:
whether the persistence layer is unreachable from the start (the
initial query raises), whether it becomes unreachable after the
analysis step (the result commit raises), whether `service.analyze`
itself raises an infrastructure-level exception, and the settled
provider outcomes the analysis would use. -/
structure RunEnv where
  dbDownAtStart : Bool
  dbDownAfterService : Bool
  serviceRaises : Bool
  providerEnv : String → LLMOutcome

/-- The observable outcome of one background `run_analysis` execution:
the database afterwards, whether an exception escaped the task
function, and the successfully committed statuses in commit order. -/
structure RunOutcome where
  db : DB
  escaped : Bool
  committed : List AnalysisStatus

/-- Set the status (and optionally the results) of one analysis row. -/
def setAnalysis (db : DB) (analysisId : Nat) (st : AnalysisStatus)
    (results : Option MergedVerdict) : DB :=
  { db with analyses := db.analyses.map fun a =>
      if a.id = analysisId then { a with status := st, results := results }
      else a }

/-- `run_analysis` (`app/api/v1/endpoints/analyze.py`), the background
completion step, with its `try/except/finally` control flow made
explicit:

* if the persistence layer is unreachable from the start, the initial
  `db.query` raises; the `except` handler then evaluates `if analysis:`
  on a local that was never assigned, and the resulting
  `UnboundLocalError` (raised inside the handler) escapes the task —
  nothing is committed;
* a missing row returns silently;
* otherwise the row is committed to `processing`, the analysis runs,
  and the row is committed to `completed` with the merged results — or,
  when `service.analyze` raises, the handler commits `failed`;
* if the persistence layer goes down after the analysis step, the
  result commit raises inside the `try`, the handler's own commit of
  `failed` raises as well, and that exception escapes the task — the
  row stays at the committed `processing`. -/
def run_analysis (analysisId : Nat) (env : RunEnv) (db : DB) : RunOutcome :=
  if env.dbDownAtStart then
    { db := db, escaped := true, committed := [] }
  else
    match db.analyses.find? (fun a => decide (a.id = analysisId)) with
    | none => { db := db, escaped := false, committed := [] }
    | some analysis =>
        let db1 := setAnalysis db analysisId .processing analysis.results
        if env.serviceRaises then
          if env.dbDownAfterService then
            { db := db1, escaped := true, committed := [.processing] }
          else
            { db := setAnalysis db1 analysisId .failed analysis.results
              escaped := false
              committed := [.processing, .failed] }
        else
          let result := analyze analysis.original_response analysis.context
            analysis.models_used env.providerEnv
          if env.dbDownAfterService then
            { db := db1, escaped := true, committed := [.processing] }
          else
            { db := setAnalysis db1 analysisId .completed (some result)
              escaped := false
              committed := [.processing, .completed] }

/-- One balance-mutating operation of the credit ledger: the analysis
debit in `create_analysis`, a `purchase_credits` call, or a Stripe
webhook credit. -/
inductive LedgerOp where
  | analyzeReq (analysis_data : AnalysisCreate)
  | purchase (userId : Nat) (amount : Int)
  | webhook (userId : Nat) (credits : Int) (package : String)

/-- The database after one ledger operation. -/
def ledgerStep (db : DB) (op : LedgerOp) : DB :=
  match op with
  | .analyzeReq d => (create_analysis d db).db
  | .purchase uid amt => (purchase_credits uid amt db).db
  | .webhook uid c p => stripe_webhook_credit uid c p db

/-- The sum of the amounts of a user's transactions. -/
def txSum (uid : Nat) (txs : List TransactionRec) : Int :=
  ((txs.filter (fun t => decide (t.user_id = uid))).map (·.amount)).sum

/-- The ledger-consistency invariant: every user's cached balance is
the 100-credit initial grant plus the sum of their transaction
amounts. -/
def ledgerConsistent (db : DB) : Prop :=
  ∀ u ∈ db.users, u.credits_balance = 100 + txSum u.id db.transactions

/-- Every transaction belongs to an existing user (transactions are
only ever appended with the id of a row just looked up). -/
def txRefsOk (db : DB) : Prop :=
  ∀ t ∈ db.transactions, ∃ u ∈ db.users, u.id = t.user_id

/-- The empty initial database. -/
def initDB : DB := { users := [], analyses := [], transactions := [] }

/-- An incoming HTTP request, reduced to what could conceivably carry a
caller identity: its headers (e.g. `Authorization`). -/
structure HttpRequest where
  headers : List (String × String)

/-- User resolution as performed by every endpoint on the analyze
router (`POST /analyze`, `GET /analyze/{id}`, `GET /analyze/history`):
the FastAPI dependency `get_current_user` takes only the database
session, so however the request authenticates itself, no header reaches
the resolution. -/
def resolve_analyze_user (req : HttpRequest) (db : DB) : UserRec × DB :=
  get_current_user db

/-- The `POST /analyze` endpoint as invoked over HTTP: the request
headers play no role in the handler. -/
def create_analysis_endpoint (req : HttpRequest) (analysis_data : AnalysisCreate)
    (db : DB) : CreateResult :=
  create_analysis analysis_data db

/-- `GET /analyze/{id}` (`get_analysis`): look up the record by id
*and* owning user (the resolved user), 404 when absent.  The response
serialization is not modelled; the row itself is returned. -/
def get_analysis_endpoint (req : HttpRequest) (analysisId : Nat) (db : DB) :
    Except Nat AnalysisRec × DB :=
  let user := (get_current_user db).1
  let db1 := (get_current_user db).2
  match db1.analyses.find?
      (fun a => decide (a.id = analysisId) && decide (a.user_id = user.id)) with
  | none => (.error 404, db1)
  | some a => (.ok a, db1)

/-- `GET /analyze/history` (`get_analysis_history`): the records of the
resolved user.  Ordering by creation time and skip/limit pagination
rearrange and truncate this list without consulting the request either;
timestamps are outside the model. -/
def get_analysis_history_endpoint (req : HttpRequest) (db : DB) :
    List AnalysisRec × DB :=
  let user := (get_current_user db).1
  let db1 := (get_current_user db).2
  (db1.analyses.filter (fun a => decide (a.user_id = user.id)), db1)

/-- Modelled from the words of the spec, for comparison with
`merge_analyses` (claim C3): the arithmetic mean of all *present*
per-provider `optimism_bias_score` values, floored to an integer
(Python `//`), defaulting to 65 when no scores are present. -/
def claimedOptimismScore (analyses : List Json) : Int :=
  let present :=
    analyses.filterMap fun a => (a.lookup "optimism_bias_score").map jsonNum
  if present.isEmpty then 65 else Int.fdiv present.sum present.length

/-- A provider verdict carrying just an optimism score (`some n`) or no
score field at all (`none`); used to state the corrected form of claim
C3 over arbitrary score lists. -/
def encodeScore : Option Int → Json
  | some n => .obj [("optimism_bias_score", .num n)]
  | none => .obj []

/-- The nonzero scores among the present ones: what the truthiness
filter of `_merge_analyses` actually keeps. -/
def keptScores (ss : List (Option Int)) : List Int :=
  (ss.filterMap id).filter (fun n => decide (n ≠ 0))

/-- A provider response text whose JSON carries one competitor named
Acme, attributed to gpt4. -/
def gptAcmeText : String :=
  "\x7b\"competitors\": [\x7b\"name\": \"Acme\", \"description\": \"from gpt4\"\x7d]\x7d"

/-- A provider response text whose JSON carries one competitor named
Acme, attributed to claude. -/
def claudeAcmeText : String :=
  "\x7b\"competitors\": [\x7b\"name\": \"Acme\", \"description\": \"from claude\"\x7d]\x7d"

/-- A provider environment where gpt4 and claude each return an
identically named competitor and gemini fails. -/
def acmeEnv : String → LLMOutcome := fun m =>
  if m = "gpt4" then .result "gpt4" gptAcmeText
  else if m = "claude" then .result "claude" claudeAcmeText
  else .exn

/-- A one-user database in the initial state: the default test user
with the 100-credit grant and empty analysis/transaction tables. -/
def dbOneUser : DB :=
  { users := [defaultTestUser], analyses := [], transactions := [] }

/-- A malformed analysis request: empty original text and a duplicated
provider list. -/
def malformedData : AnalysisCreate :=
  { original_response := "", context := none, models := ["gpt4", "gpt4"] }

/-- A database holding one pending analysis record (the state right
after `create_analysis` accepted `malformedData`). -/
def dbPending : DB := (create_analysis malformedData dbOneUser).db

/-- A run environment in which the persistence layer is unreachable
from the start of the background task. -/
def envDbDown : RunEnv :=
  { dbDownAtStart := true, dbDownAfterService := false,
    serviceRaises := false, providerEnv := fun _ => .exn }

/-- A run environment in which the persistence layer works and the
analysis step raises an infrastructure-level exception. -/
def envServiceRaises : RunEnv :=
  { dbDownAtStart := false, dbDownAfterService := false,
    serviceRaises := true, providerEnv := fun _ => .exn }

/-- A run environment in which nothing fails (providers all fail
provider-locally, which the orchestrator absorbs). -/
def envHealthy : RunEnv :=
  { dbDownAtStart := false, dbDownAfterService := false,
    serviceRaises := false, providerEnv := fun _ => .exn }

/-- The status of the analysis row with the given id, if present. -/
def statusOf (db : DB) (analysisId : Nat) : Option AnalysisStatus :=
  (db.analyses.find? (fun a => decide (a.id = analysisId))).map (·.status)

/-- The two clauses every reachable database state satisfies: ledger
consistency plus referential integrity of the transaction table. -/
def dbInv (db : DB) : Prop :=
  ledgerConsistent db ∧ txRefsOk db

/-- The request of the specification's worked scenario: two providers,
hence a 20-credit cost. -/
def specData : AnalysisCreate :=
  { original_response := "We will capture 50% of a $10B market in year one"
    context := some "B2B SaaS pitch"
    models := ["gpt4", "claude"] }

/-- C5: first clause of the corrected parser description — when the
whole text decodes as JSON, that value is returned directly. -/
theorem parse_json_response_direct (t : String) (j : Json)
    (h : json_loads t = some j) : parse_json_response t = some j := by
  simp [parse_json_response, h]

/-- C5 (corrected): when direct decoding of the whole text fails, the
parser decodes the span running from the *first opening brace to the
last closing brace of the whole text* (the greedy `re.search` match) —
not the first top-level brace-delimited span; if that span decodes, its
value is returned, so a single JSON object surrounded by brace-free
prose is recovered. -/
theorem parse_json_response_greedy_span (t s : String) (j : Json)
    (hdirect : json_loads t = none)
    (hspan : braceSpan t = some s)
    (hsub : json_loads s = some j) :
    parse_json_response t = some j := by
  simp [parse_json_response, hdirect, hspan, hsub]

/-- C5 witness: prose around a single JSON object parses to that
object. -/
theorem parse_json_response_greedy_span_witness :
    parse_json_response "note: \x7b\"a\": 1\x7d done" =
      some (Json.obj [("a", Json.num 1)]) :=
  parse_json_response_greedy_span "note: \x7b\"a\": 1\x7d done"
    "\x7b\"a\": 1\x7d" (Json.obj [("a", Json.num 1)])
    (by decide) (by decide) (by decide)

/-- C5 counterexample: the first top-level brace span `{"x": 1}` of
this text is valid JSON, yet the parser returns `None`, because the
greedy regex hands `json.loads` the span up to the *last* `}` — which
has trailing junk after the first object and fails to decode.  The
claim requires `some (obj [("x", 1)])` here. -/
theorem parse_json_response_counterexample :
    parse_json_response "a \x7b\"x\": 1\x7d b \x7b\"y\": 2\x7d" = none ∧
    json_loads "\x7b\"x\": 1\x7d" = some (Json.obj [("x", Json.num 1)]) ∧
    braceSpan "a \x7b\"x\": 1\x7d b \x7b\"y\": 2\x7d" =
      some "\x7b\"x\": 1\x7d b \x7b\"y\": 2\x7d" :=
  ⟨by decide, by decide, by decide⟩

/-- The truthiness filter of `_merge_analyses` keeps exactly the
present-and-nonzero scores. -/
theorem optimismScores_encodeScore (ss : List (Option Int)) :
    optimismScores (ss.map encodeScore) = (keptScores ss).map Json.num := by
  induction ss with
  | nil => rfl
  | cons s ss ih =>
      cases s with
      | none =>
          simpa [optimismScores, encodeScore, keptScores, Json.lookup,
            List.filterMap_cons] using ih
      | some n =>
          by_cases h : n = 0
          · subst h
            simpa [optimismScores, encodeScore, keptScores, Json.lookup,
              Json.truthy, List.filterMap_cons] using ih
          · simp only [optimismScores, encodeScore, keptScores,
              List.filterMap_cons, List.map_cons, List.filterMap_cons] at ih ⊢
            simp [Json.lookup, Json.truthy, h, optimismScores, keptScores] at ih ⊢
            exact ih

/-- C3 (corrected): for every provider list, the merged optimism score
is the floored mean of the scores that are present *and nonzero* (the
source filters on truthiness, so a present score of 0 is dropped), and
65 exactly when no nonzero score is present. -/
theorem merge_optimism_mean_of_nonzero_scores (t : String)
    (ss : List (Option Int)) :
    (merge_analyses t (ss.map encodeScore)).optimism_bias_score =
      (if keptScores ss = [] then 65
       else Int.fdiv (keptScores ss).sum (keptScores ss).length) := by
  show (if (optimismScores (ss.map encodeScore)).isEmpty then (65 : Int)
        else Int.fdiv (sumScores (optimismScores (ss.map encodeScore)))
          (optimismScores (ss.map encodeScore)).length) = _
  rw [optimismScores_encodeScore]
  by_cases h : keptScores ss = []
  · simp [h]
  · have hne : ((keptScores ss).map Json.num).isEmpty = false := by
      simp [List.isEmpty_iff, h]
    rw [hne]
    simp only [if_neg h, Bool.false_eq_true, if_false]
    congr 1
    · have hid : jsonNum ∘ Json.num = id := funext (fun n => rfl)
      simp [sumScores, List.map_map, hid]
    · simp

/-- C3 counterexample: one parsed verdict with the present score `0`.
The claimed mean of all present scores is `0`, but the code filters the
falsy score out and lands on the no-scores default `65`. -/
theorem merge_optimism_counterexample :
    claimedOptimismScore [Json.obj [("optimism_bias_score", Json.num 0)]] = 0 ∧
    (merge_analyses "t" [Json.obj [("optimism_bias_score", Json.num 0)]]).optimism_bias_score = 65 ∧
    (0 : Int) ≠ 65 :=
  ⟨by decide, by decide, by decide⟩

/-- C8 (corrected): `analyze` returns a merged verdict unconditionally;
in particular an empty or entirely-unrecognized provider list is not
rejected before fan-out — it produces the fallback verdict. -/
theorem analyze_total_fallback_on_unrecognized (t : String)
    (ctx : Option String) (models : List String) (env : String → LLMOutcome)
    (h1 : "gpt4" ∉ models) (h2 : "claude" ∉ models) (h3 : "gemini" ∉ models) :
    analyze t ctx models env = create_fallback_analysis t := by
  simp [analyze, h1, h2, h3, synthesize_results]

/-- C8 witness: a provider list with only an unknown identifier yields
the fallback verdict. -/
theorem analyze_total_fallback_witness :
    analyze "text" none ["bogus"] (fun _ => .exn) =
      create_fallback_analysis "text" :=
  analyze_total_fallback_on_unrecognized "text" none ["bogus"] (fun _ => .exn)
    (by decide) (by decide) (by decide)

/-- C8 counterexample: on the empty provider list — the one condition
the claim says must signal an explicit error — `analyze` instead
returns normally, with the fallback verdict.  The source has no raise
path at all: the modelled `analyze` is a total function into
`MergedVerdict`. -/
theorem analyze_empty_models_counterexample :
    analyze "t" none [] (fun _ => .exn) = create_fallback_analysis "t" := rfl

/-- C6 (corrected): competitor merging is first-occurrence-wins
deduplication by exact name over the providers in the *fixed internal
order* gpt4, claude, gemini (the order the source appends the tasks),
regardless of the order in which providers were requested.  Here the
request lists claude first, yet the winning entry is the gpt4 one. -/
theorem merged_competitors_internal_order (env : String → LLMOutcome)
    (f1 f2 : List (String × Json)) (n : Json) (t : String) (ctx : Option String)
    (hn : n.truthy = true)
    (h1 : parsedOf (env "gpt4") =
      some (Json.obj [("competitors", Json.arr [Json.obj f1])]))
    (h2 : parsedOf (env "claude") =
      some (Json.obj [("competitors", Json.arr [Json.obj f2])]))
    (hn1 : (Json.obj f1).lookup "name" = some n)
    (hn2 : (Json.obj f2).lookup "name" = some n) :
    (analyze t ctx ["claude", "gpt4"] env).competitors = [Json.obj f1] := by
  have hresp :
      (analyze t ctx ["claude", "gpt4"] env) =
        synthesize_results t [env "gpt4", env "claude"] := by
    simp [analyze]
  rw [hresp]
  have hparsed :
      [env "gpt4", env "claude"].filterMap parsedOf =
        [Json.obj [("competitors", Json.arr [Json.obj f1])],
         Json.obj [("competitors", Json.arr [Json.obj f2])]] := by
    simp [List.filterMap_cons, h1, h2]
  show (if ([env "gpt4", env "claude"].filterMap parsedOf).isEmpty then _
        else merge_analyses t ([env "gpt4", env "claude"].filterMap parsedOf)).competitors = _
  rw [hparsed]
  show mergedCompetitors _ = _
  unfold mergedCompetitors
  have hl1 : Option.map (fun x => x.2)
      (List.find? (fun p => decide (p.1 = "name")) f1) = some n := by
    simpa [Json.lookup] using hn1
  have hl2 : Option.map (fun x => x.2)
      (List.find? (fun p => decide (p.1 = "name")) f2) = some n := by
    simpa [Json.lookup] using hn2
  have hstep1 :
      addCompetitors [] (Json.obj [("competitors", Json.arr [Json.obj f1])]) =
        [(n, Json.obj f1)] := by
    simp [addCompetitors, competitorsOf, Json.getD, Json.lookup, hl1, hn]
  have hstep2 :
      addCompetitors [(n, Json.obj f1)]
        (Json.obj [("competitors", Json.arr [Json.obj f2])]) =
        [(n, Json.obj f1)] := by
    simp [addCompetitors, competitorsOf, Json.getD, Json.lookup, hl2, hn]
  simp [List.foldl, hstep1, hstep2]

/-- C6 witness: gpt4 and claude both name Acme, the request lists
claude first, and the merged list holds exactly the gpt4 entry. -/
theorem merged_competitors_internal_order_witness :
    (analyze "t" none ["claude", "gpt4"] acmeEnv).competitors =
      [Json.obj [("name", Json.str "Acme"), ("description", Json.str "from gpt4")]] :=
  merged_competitors_internal_order acmeEnv
    [("name", Json.str "Acme"), ("description", Json.str "from gpt4")]
    [("name", Json.str "Acme"), ("description", Json.str "from claude")]
    (Json.str "Acme") "t" none
    (by decide) (by decide) (by decide) (by decide) (by decide)

/-- C6 counterexample: with the request order claude-then-gpt4 and both
providers returning a competitor named Acme, the claim requires the
entry of the first *requested* provider (claude); the merged list holds
the gpt4 entry instead, because the source processes providers in the
fixed internal order gpt4, claude, gemini. -/
theorem merged_competitors_counterexample :
    (analyze "t" none ["claude", "gpt4"] acmeEnv).competitors =
      [Json.obj [("name", Json.str "Acme"), ("description", Json.str "from gpt4")]] ∧
    Json.obj [("name", Json.str "Acme"), ("description", Json.str "from gpt4")] ≠
      Json.obj [("name", Json.str "Acme"), ("description", Json.str "from claude")] :=
  ⟨by decide, by decide⟩

/-- C7 (confirmed): when no provider outcome yields parseable output —
each settled element is an exception, a provider-failure dict with an
empty response, or a response whose parse returns `None` — synthesis
returns exactly the fixed fallback verdict, which does not depend on
the analyzed text, and it never signals an error (it is a total
function). -/
theorem synthesize_fallback_when_nothing_parses (t : String)
    (rs : List LLMOutcome)
    (h : ∀ r ∈ rs, r = .exn ∨ (∃ m, r = .result m "") ∨
         (∃ m s, r = .result m s ∧ parse_json_response s = none)) :
    synthesize_results t rs = create_fallback_analysis t ∧
    (∀ t2, create_fallback_analysis t = create_fallback_analysis t2) := by
  have hnone : ∀ r ∈ rs, parsedOf r = none := by
    intro r hr
    rcases h r hr with h1 | ⟨m, h1⟩ | ⟨m, s, h1, h2⟩
    · subst h1; rfl
    · subst h1; rfl
    · subst h1
      by_cases hs : s = "" <;> simp [parsedOf, hs, h2]
  have hempty : rs.filterMap parsedOf = [] := by
    rw [List.filterMap_eq_nil]
    exact hnone
  constructor
  · simp [synthesize_results, hempty]
  · intro t2; rfl

/-- C7 witness: one exception, one provider-failure dict and one
unparseable response yield the fallback verdict. -/
theorem synthesize_fallback_witness :
    synthesize_results "t"
      [.exn, .result "gpt4" "", .result "claude" "not json"] =
      create_fallback_analysis "t" := by
  refine (synthesize_fallback_when_nothing_parses "t" _ ?_).1
  intro r hr
  simp only [List.mem_cons, List.not_mem_nil, or_false] at hr
  rcases hr with rfl | rfl | rfl
  · exact Or.inl rfl
  · exact Or.inr (Or.inl ⟨"gpt4", rfl⟩)
  · exact Or.inr (Or.inr ⟨"claude", "not json", rfl, by decide⟩)

/-- C4 (corrected): ingress performs no content validation beyond the
schema's field types.  The only synchronous rejection of
`create_analysis` is the 402 for an insufficient balance: the request
is rejected iff the resolved user's balance is strictly below
`10 × len(models)`, regardless of the text being empty, the provider
identifiers being unknown, or the list being empty or duplicated. -/
theorem create_analysis_reject_iff_insufficient (analysis_data : AnalysisCreate)
    (db : DB) :
    (create_analysis analysis_data db).response = .error 402 ↔
      (get_current_user db).1.credits_balance <
        (analysis_data.models.length : Int) * 10 := by
  by_cases h : (get_current_user db).1.credits_balance <
      (analysis_data.models.length : Int) * 10 <;>
    simp [create_analysis, h]

/-- C4 witness: the malformed request (empty text, duplicated provider
list) is *not* rejected when the balance covers the cost. -/
theorem create_analysis_reject_iff_insufficient_witness :
    ¬ (create_analysis malformedData dbOneUser).response = .error 402 := by
  rw [create_analysis_reject_iff_insufficient malformedData dbOneUser]
  decide

/-- C4 counterexample: the request with empty original text and the
duplicated provider list `["gpt4", "gpt4"]` — malformed on two counts of
the claim — is accepted: an analysis row is created, a usage
transaction is appended and the balance drops from 100 to 80. -/
theorem create_analysis_no_ingress_validation_counterexample :
    (create_analysis malformedData dbOneUser).response = .ok 1 ∧
    (create_analysis malformedData dbOneUser).db.analyses =
      [{ id := 1, user_id := 0, original_response := "", context := none,
         models_used := ["gpt4", "gpt4"], status := .pending, results := none,
         credits_used := 20 }] ∧
    (create_analysis malformedData dbOneUser).db.transactions =
      [{ user_id := 0, type := .usage, amount := -20,
         description := "Analysis using gpt4, gpt4" }] ∧
    (create_analysis malformedData dbOneUser).db.users =
      [{ defaultTestUser with credits_balance := 80 }] :=
  ⟨by decide, by decide, by decide, by decide⟩

/-- C10 (confirmed): every endpoint of the analyze router resolves the
caller through `get_current_user`, which never reads the request — so
any two requests, whatever their headers, resolve to the same user:
the first row of the `user` table, created as the default Test User
with a 100-credit balance when the table is empty.  Consequently
creation, read and history behave identically for any two requests
against the same database state. -/
theorem analyze_endpoints_ignore_credentials (req1 req2 : HttpRequest)
    (db : DB) :
    resolve_analyze_user req1 db = resolve_analyze_user req2 db ∧
    (∀ analysis_data, create_analysis_endpoint req1 analysis_data db =
       create_analysis_endpoint req2 analysis_data db) ∧
    (∀ analysisId, get_analysis_endpoint req1 analysisId db =
       get_analysis_endpoint req2 analysisId db) ∧
    get_analysis_history_endpoint req1 db = get_analysis_history_endpoint req2 db ∧
    (db.users = [] →
       (resolve_analyze_user req1 db).1 = defaultTestUser ∧
       defaultTestUser.name = "Test User" ∧
       defaultTestUser.credits_balance = 100) ∧
    (∀ u rest, db.users = u :: rest → (resolve_analyze_user req1 db).1 = u) := by
  refine ⟨rfl, fun _ => rfl, fun _ => rfl, rfl, ?_, ?_⟩
  · intro h
    refine ⟨?_, rfl, rfl⟩
    simp [resolve_analyze_user, get_current_user, h]
  · intro u rest h
    simp [resolve_analyze_user, get_current_user, h]

/-- C10 witness: a request with an Authorization header and one
without resolve to the same user on the empty database — the freshly
created default Test User. -/
theorem analyze_endpoints_ignore_credentials_witness :
    resolve_analyze_user { headers := [("Authorization", "Bearer 42")] } initDB =
      resolve_analyze_user { headers := [] } initDB ∧
    (resolve_analyze_user { headers := [("Authorization", "Bearer 42")] } initDB).1 =
      defaultTestUser :=
  ⟨(analyze_endpoints_ignore_credentials
      { headers := [("Authorization", "Bearer 42")] } { headers := [] } initDB).1,
   ((analyze_endpoints_ignore_credentials
      { headers := [("Authorization", "Bearer 42")] } { headers := [] } initDB).2.2.2.2.1
      rfl).1⟩

/-- Updating one analysis row leaves it discoverable under its id, with
the new status and results. -/
theorem find?_setAnalysis (db : DB) (analysisId : Nat) (st : AnalysisStatus)
    (res : Option MergedVerdict) (rec : AnalysisRec)
    (h : db.analyses.find? (fun a => decide (a.id = analysisId)) = some rec) :
    (setAnalysis db analysisId st res).analyses.find?
      (fun a => decide (a.id = analysisId)) =
      some { rec with status := st, results := res } := by
  have hid : rec.id = analysisId := by
    have hsat := List.find?_some h
    simpa using hsat
  show List.find? _ (db.analyses.map _) = _
  rw [List.find?_map]
  have hpf : ((fun a : AnalysisRec => decide (a.id = analysisId)) ∘
      (fun a => if a.id = analysisId then { a with status := st, results := res }
                else a)) = (fun a : AnalysisRec => decide (a.id = analysisId)) := by
    funext a
    by_cases ha : a.id = analysisId <;> simp [ha]
  rw [hpf, h]
  simp [hid]

/-- C9 (corrected): when the persistence layer stays reachable, a
background execution on an existing record commits `processing` and
then exactly one terminal status — `failed` iff the analysis step
raised, `completed` otherwise — and no exception escapes the task. -/
theorem run_analysis_failure_handling (analysisId : Nat) (env : RunEnv)
    (db : DB) (rec : AnalysisRec)
    (h1 : env.dbDownAtStart = false)
    (h2 : env.dbDownAfterService = false)
    (hfind : db.analyses.find? (fun a => decide (a.id = analysisId)) = some rec) :
    (run_analysis analysisId env db).escaped = false ∧
    (run_analysis analysisId env db).committed =
      [.processing, if env.serviceRaises then .failed else .completed] ∧
    statusOf (run_analysis analysisId env db).db analysisId =
      some (if env.serviceRaises then .failed else .completed) := by
  have hstep1 := find?_setAnalysis db analysisId .processing rec.results rec hfind
  cases hs : env.serviceRaises with
  | true =>
      have hstep2 := find?_setAnalysis
        (setAnalysis db analysisId .processing rec.results) analysisId .failed
        rec.results _ hstep1
      refine ⟨?_, ?_, ?_⟩ <;>
        simp [run_analysis, h1, h2, hs, hfind, statusOf, hstep2]
  | false =>
      have hstep2 := find?_setAnalysis
        (setAnalysis db analysisId .processing rec.results) analysisId .completed
        (some (analyze rec.original_response rec.context rec.models_used
          env.providerEnv)) _ hstep1
      refine ⟨?_, ?_, ?_⟩ <;>
        simp [run_analysis, h1, h2, hs, hfind, statusOf, hstep2]

/-- C9 witness: with a reachable persistence layer and an analysis step
that raises, the pending record ends at `failed`, having committed
`processing` then `failed`, and nothing escapes. -/
theorem run_analysis_failure_handling_witness :
    (run_analysis 1 envServiceRaises dbPending).escaped = false ∧
    (run_analysis 1 envServiceRaises dbPending).committed =
      [.processing, .failed] ∧
    statusOf (run_analysis 1 envServiceRaises dbPending).db 1 = some .failed :=
  run_analysis_failure_handling 1 envServiceRaises dbPending
    { id := 1, user_id := 0, original_response := "", context := none,
      models_used := ["gpt4", "gpt4"], status := .pending, results := none,
      credits_used := 20 }
    rfl rfl (by decide)

/-- C9 counterexample: the claim promises that *any* infrastructure
failure marks the record `failed` without re-raising, the cited example
being an unreachable persistence layer.  But when the persistence layer
is down from the start, the initial query raises, the `except` handler
trips over the never-assigned `analysis` local (an `UnboundLocalError`
raised inside the handler), the exception escapes the task function,
and the record remains `pending`. -/
theorem run_analysis_db_down_counterexample :
    (run_analysis 1 envDbDown dbPending).escaped = true ∧
    (run_analysis 1 envDbDown dbPending).db = dbPending ∧
    statusOf dbPending 1 = some .pending :=
  ⟨rfl, rfl, by decide⟩

/-- Resolving the user can only create the default user row; the
analysis table is untouched. -/
theorem get_current_user_keeps_analyses (db : DB) :
    (get_current_user db).2.analyses = db.analyses := by
  cases hdb : db.users <;> simp [get_current_user, hdb]

/-- Resolving the user leaves the transaction ledger untouched. -/
theorem get_current_user_keeps_transactions (db : DB) :
    (get_current_user db).2.transactions = db.transactions := by
  cases hdb : db.users <;> simp [get_current_user, hdb]

/-- Every pre-existing user row survives user resolution unchanged. -/
theorem get_current_user_keeps_users (db : DB) :
    ∀ u ∈ db.users, u ∈ (get_current_user db).2.users := by
  intro u hu
  cases hdb : db.users with
  | nil => rw [hdb] at hu; cases hu
  | cons v rest => rw [hdb] at hu; simpa [get_current_user, hdb] using hu

/-- After debiting or crediting the resolved user in place, resolving
again finds the same first row with the shifted balance. -/
theorem get_current_user_after_update (db : DB) (delta : Int)
    (A : List AnalysisRec) (T : List TransactionRec) :
    (get_current_user
      { users := updateBalance (get_current_user db).1.id delta
          (get_current_user db).2.users
        analyses := A
        transactions := T }).1.credits_balance =
      (get_current_user db).1.credits_balance + delta := by
  cases hdb : db.users with
  | nil => simp [get_current_user, hdb, updateBalance, defaultTestUser]
  | cons u rest => simp [get_current_user, hdb, updateBalance]

/-- The background completion step never touches the user table or the
transaction ledger (it mutates only the one analysis row it owns). -/
theorem run_analysis_keeps_ledger (analysisId : Nat) (env : RunEnv) (d : DB) :
    (run_analysis analysisId env d).db.users = d.users ∧
    (run_analysis analysisId env d).db.transactions = d.transactions := by
  unfold run_analysis
  cases h1 : env.dbDownAtStart with
  | true => exact ⟨rfl, rfl⟩
  | false =>
      simp only [Bool.false_eq_true, if_false]
      cases hf : d.analyses.find? (fun a => decide (a.id = analysisId)) with
      | none => exact ⟨rfl, rfl⟩
      | some rec =>
          cases h2 : env.serviceRaises <;> cases h3 : env.dbDownAfterService <;>
            simp [h2, h3, setAnalysis]

/-- C2 (confirmed): the cost is exactly `10 × len(models)`; a request
with balance strictly below the cost is rejected with 402 and changes
no analysis row, no transaction and no user balance; otherwise exactly
one pending analysis row with `credits_used = cost` and exactly one
usage transaction of `-cost` are appended while the balance drops by
the cost — and the later background completion never touches users or
transactions, so the charge is independent of provider success. -/
theorem create_analysis_charges_ten_per_provider
    (analysis_data : AnalysisCreate) (db : DB) :
    ((get_current_user db).1.credits_balance <
        (analysis_data.models.length : Int) * 10 →
      (create_analysis analysis_data db).response = .error 402 ∧
      (create_analysis analysis_data db).db.analyses = db.analyses ∧
      (create_analysis analysis_data db).db.transactions = db.transactions ∧
      ∀ u ∈ db.users, u ∈ (create_analysis analysis_data db).db.users) ∧
    ((analysis_data.models.length : Int) * 10 ≤
        (get_current_user db).1.credits_balance →
      (create_analysis analysis_data db).response =
        .ok ((get_current_user db).2.analyses.length + 1) ∧
      (create_analysis analysis_data db).db.analyses =
        (get_current_user db).2.analyses ++
          [{ id := (get_current_user db).2.analyses.length + 1
             user_id := (get_current_user db).1.id
             original_response := analysis_data.original_response
             context := analysis_data.context
             models_used := analysis_data.models
             status := .pending
             results := none
             credits_used := (analysis_data.models.length : Int) * 10 }] ∧
      (create_analysis analysis_data db).db.transactions =
        (get_current_user db).2.transactions ++
          [{ user_id := (get_current_user db).1.id
             type := .usage
             amount := -((analysis_data.models.length : Int) * 10)
             description := "Analysis using " ++
               String.intercalate ", " analysis_data.models }] ∧
      (get_current_user (create_analysis analysis_data db).db).1.credits_balance =
        (get_current_user db).1.credits_balance -
          (analysis_data.models.length : Int) * 10) ∧
    (∀ analysisId env d,
      (run_analysis analysisId env d).db.users = d.users ∧
      (run_analysis analysisId env d).db.transactions = d.transactions) := by
  refine ⟨?_, ?_, fun analysisId env d => run_analysis_keeps_ledger analysisId env d⟩
  · intro h
    unfold create_analysis
    rw [if_pos h]
    exact ⟨rfl, get_current_user_keeps_analyses db,
      get_current_user_keeps_transactions db,
      get_current_user_keeps_users db⟩
  · intro h
    unfold create_analysis
    rw [if_neg (not_lt.mpr h)]
    refine ⟨rfl, rfl, rfl, ?_⟩
    rw [sub_eq_add_neg]
    exact get_current_user_after_update db
      (-((analysis_data.models.length : Int) * 10)) _ _

/-- C2 witness: the worked scenario of the specification — two
providers, cost 20, balance 100 — is accepted and leaves balance 80. -/
theorem create_analysis_charges_witness :
    (create_analysis specData dbOneUser).response = .ok 1 ∧
    (get_current_user (create_analysis specData dbOneUser).db).1.credits_balance = 80 := by
  have h := (create_analysis_charges_ten_per_provider specData dbOneUser).2.1
    (by decide)
  refine ⟨h.1, ?_⟩
  rw [h.2.2.2]
  decide

/-- Appending one transaction adds its amount to the sum of exactly its
own user. -/
theorem txSum_append (uid : Nat) (txs : List TransactionRec)
    (t : TransactionRec) :
    txSum uid (txs ++ [t]) =
      txSum uid txs + (if t.user_id = uid then t.amount else 0) := by
  unfold txSum
  rw [List.filter_append, List.map_append, List.sum_append]
  by_cases h : t.user_id = uid <;> simp [h]

/-- Every row of the updated user table comes from a row of the
original table, updated iff its id matches. -/
theorem updateBalance_mem (uid : Nat) (delta : Int) (users : List UserRec)
    (u2 : UserRec) (h : u2 ∈ updateBalance uid delta users) :
    ∃ u ∈ users, u2 = (if u.id = uid
      then { u with credits_balance := u.credits_balance + delta } else u) := by
  unfold updateBalance at h
  rcases List.mem_map.mp h with ⟨u, hu, hfu⟩
  exact ⟨u, hu, hfu.symm⟩

/-- The updated image of a table row is in the updated table. -/
theorem updateBalance_mem_of_mem (uid : Nat) (delta : Int)
    (users : List UserRec) (u : UserRec) (h : u ∈ users) :
    (if u.id = uid then { u with credits_balance := u.credits_balance + delta }
     else u) ∈ updateBalance uid delta users :=
  List.mem_map.mpr ⟨u, h, rfl⟩

/-- The shared shape of all three credit mutations: shift one existing
user's balance by `delta` and append one transaction of amount `delta`
for that user, in the same unit of work.  This preserves both invariant
clauses. -/
theorem dbInv_credit (db : DB) (uid : Nat) (delta : Int)
    (ty : TransactionType) (desc : String) (analyses2 : List AnalysisRec)
    (hinv : dbInv db) (hex : ∃ u ∈ db.users, u.id = uid) :
    dbInv { users := updateBalance uid delta db.users
            analyses := analyses2
            transactions := db.transactions ++
              [{ user_id := uid, type := ty, amount := delta, description := desc }] } := by
  obtain ⟨hled, href⟩ := hinv
  constructor
  · intro u2 hu2
    rcases updateBalance_mem uid delta db.users u2 hu2 with ⟨u, hu, rfl⟩
    by_cases h : u.id = uid
    · simp only [if_pos h]
      show u.credits_balance + delta = 100 + txSum u.id (db.transactions ++ _)
      rw [txSum_append, hled u hu]
      simp [h]
      ring
    · simp only [if_neg h]
      show u.credits_balance = 100 + txSum u.id (db.transactions ++ _)
      rw [txSum_append, hled u hu]
      have : uid ≠ u.id := fun he => h he.symm
      simp [this]
  · intro t ht
    rcases List.mem_append.mp ht with h | h
    · rcases href t h with ⟨u, hu, hid⟩
      refine ⟨(if u.id = uid
          then { u with credits_balance := u.credits_balance + delta } else u),
        updateBalance_mem_of_mem uid delta db.users u hu, ?_⟩
      by_cases hh : u.id = uid
      · rw [if_pos hh]
        exact hid
      · rw [if_neg hh]
        exact hid
    · rcases hex with ⟨u0, hu0, hid0⟩
      simp only [List.mem_singleton] at h
      subst h
      refine ⟨(if u0.id = uid
          then { u0 with credits_balance := u0.credits_balance + delta } else u0),
        updateBalance_mem_of_mem uid delta db.users u0 hu0, ?_⟩
      rw [if_pos hid0]
      exact hid0

/-- User resolution preserves the invariant and returns a member of
the resulting user table.  In the creation case the referential clause
forces the transaction table to be empty, so the fresh default user
with balance 100 satisfies the ledger clause. -/
theorem dbInv_get_current_user (db : DB) (h : dbInv db) :
    dbInv (get_current_user db).2 ∧
    (get_current_user db).1 ∈ (get_current_user db).2.users := by
  cases hdb : db.users with
  | nil =>
      have htx : db.transactions = [] := by
        rcases hts : db.transactions with _ | ⟨t, ts⟩
        · rfl
        · exfalso
          rcases h.2 t (by rw [hts]; exact List.mem_cons_self t ts) with ⟨u, hu, _⟩
          rw [hdb] at hu
          cases hu
      refine ⟨⟨?_, ?_⟩, ?_⟩
      · intro u hu
        simp only [get_current_user, hdb] at hu ⊢
        simp only [List.mem_singleton] at hu
        subst hu
        simp [htx, txSum, defaultTestUser]
      · intro t ht
        simp only [get_current_user, hdb] at ht
        rw [htx] at ht
        cases ht
      · simp [get_current_user, hdb]
  | cons u rest =>
      refine ⟨?_, ?_⟩
      · simpa [get_current_user, hdb] using h
      · simp [get_current_user, hdb]

/-- Each of the three balance-mutating operations preserves the
invariant. -/
theorem dbInv_ledgerStep (db : DB) (op : LedgerOp) (h : dbInv db) :
    dbInv (ledgerStep db op) := by
  cases op with
  | analyzeReq d =>
      have hg := dbInv_get_current_user db h
      show dbInv (create_analysis d db).db
      unfold create_analysis
      by_cases hb : (get_current_user db).1.credits_balance <
          (d.models.length : Int) * 10
      · rw [if_pos hb]
        exact hg.1
      · rw [if_neg hb]
        exact dbInv_credit (get_current_user db).2 (get_current_user db).1.id
          (-((d.models.length : Int) * 10)) .usage
          ("Analysis using " ++ String.intercalate ", " d.models)
          ((get_current_user db).2.analyses ++ [_]) hg.1
          ⟨(get_current_user db).1, hg.2, rfl⟩
  | purchase uid amt =>
      show dbInv (purchase_credits uid amt db).db
      unfold purchase_credits
      cases hfind : db.users.find? (fun u => decide (u.id = uid)) with
      | none => simpa [hfind] using h
      | some u0 =>
          have hmem : u0 ∈ db.users := List.mem_of_find?_eq_some hfind
          have hid : u0.id = uid := by
            have := List.find?_some hfind
            simpa using this
          simp only [hfind]
          exact dbInv_credit db uid amt .purchase
            ("Purchased " ++ toString amt ++ " credits") db.analyses h
            ⟨u0, hmem, hid⟩
  | webhook uid c p =>
      show dbInv (stripe_webhook_credit uid c p db)
      unfold stripe_webhook_credit
      cases hfind : db.users.find? (fun u => decide (u.id = uid)) with
      | none => simpa [hfind] using h
      | some u0 =>
          have hmem : u0 ∈ db.users := List.mem_of_find?_eq_some hfind
          have hid : u0.id = uid := by
            have := List.find?_some hfind
            simpa using this
          simp only [hfind]
          exact dbInv_credit db uid c .purchase
            ("Purchased " ++ p ++ " package (" ++ toString c ++ " credits) via Stripe")
            db.analyses h ⟨u0, hmem, hid⟩

/-- The invariant is preserved along any operation sequence. -/
theorem dbInv_foldl (ops : List LedgerOp) :
    ∀ db, dbInv db → dbInv (ops.foldl ledgerStep db) := by
  induction ops with
  | nil => intro db h; exact h
  | cons op ops ih => intro db h; exact ih (ledgerStep db op) (dbInv_ledgerStep db op h)

/-- C1 (confirmed): after any sequence of the balance-mutating
operations (analysis debit, credit purchase, Stripe webhook credit)
starting from the empty database, every user's cached balance equals
100 (the initial grant) plus the sum of the amounts of all of that
user's ledger transactions — each mutation pairs the balance change
with exactly one appended transaction of the same signed amount in the
same unit of work. -/
theorem ledger_consistency_all_sequences (ops : List LedgerOp) :
    ledgerConsistent (ops.foldl ledgerStep initDB) := by
  have hinit : dbInv initDB := by
    constructor
    · intro u hu
      simp [initDB] at hu
    · intro t ht
      simp [initDB] at ht
  exact (dbInv_foldl ops initDB hinit).1
